import Mathlib

/-!
# Verification of the booking engine of `my_bot`

Shallow embedding of the slot-generation and booking-admission engine:

* `src/database.py` — `_to_minutes`, `_intervals_overlap`,
  `create_booking_atomic`, `get_work_context_for_date`,
  `update_booking_status`;
* `src/handlers/client_handlers.py` — `_ceil_to_step`,
  `_booking_occupy_minutes`, `_is_working_date`,
  `_get_work_window_minutes`, `_get_break_intervals`,
  `_generate_free_starts`;
* `src/handlers/admin_handlers.py` — `_booking_occupy_minutes`,
  `approve_booking`.

Conventions of the embedding:

* Python integers are `Int`; Python `//` (floor division) is `Int.fdiv`.
* `"HH:MM"` time strings are represented by their minute value
  (`_to_minutes` / `_time_to_minutes` is a bijection between well-formed
  strings and minutes, and all arithmetic in the source is on minutes).
  A SQL `NULL` (or empty, hence falsy, string) is `Option.none`.
* Dates are opaque `Int` identifiers; the per-weekday lookups
  (`get_day_schedule`, `get_breaks_for_weekday`) are modelled by the
  per-date data they return, carried in `SlotEnv` / `DBState`.
* The SQLite `BEGIN IMMEDIATE` transaction of `create_booking_atomic`
  serialises admissions; concurrency is therefore modelled by running the
  transactions in either sequential order over the shared state.
* Columns never read by the engine (client name, phone, service text,
  price text, timestamps) are omitted from the `Booking` record.
-/

/-- `database._intervals_overlap` (identical to `admin_handlers._overlap` and
`client_handlers._intervals_overlap`): half-open interval overlap test. -/
def intervalsOverlap (aStart aEnd bStart bEnd : Int) : Bool :=
  aStart < bEnd && bStart < aEnd

/-- `client_handlers._ceil_to_step` (identical to
`admin_handlers._ceil_to_step`): round `value` up to a multiple of `step`
using Python floor division; identity when `step <= 0`. -/
def ceilToStep (value step : Int) : Int :=
  if step ≤ 0 then value
  else ((value + step - 1).fdiv step) * step

/-- `client_handlers._booking_occupy_minutes` (the `admin_handlers` version
computes the same expression from the same settings fields). -/
def bookingOccupyMinutes (duration shortThreshold restAfterShort extraRound : Int) : Int :=
  if duration < shortThreshold then ceilToStep (duration + restAfterShort) extraRound
  else duration

/-- The `shop_settings` row, as read by `get_shop_settings`. -/
structure ShopSettings where
  baseGridMinutes : Int
  shortServiceThresholdMinutes : Int
  restMinutesAfterShort : Int
  extraRoundMinutes : Int
  minLeadMinutes : Int
deriving DecidableEq, Repr

/-- `occupy` of the shop settings applied to a nominal duration, as every
handler computes it. -/
def ShopSettings.occupy (shop : ShopSettings) (duration : Int) : Int :=
  bookingOccupyMinutes duration shop.shortServiceThresholdMinutes
    shop.restMinutesAfterShort shop.extraRoundMinutes

/-- The `status` column values used by the engine. -/
inductive BookingStatus
  | pending
  | approved
  | completed
  | rejected
  | cancelledByClient
  | cancelledByAdmin
deriving DecidableEq, Repr

/-- `status IN ('pending','approved')` — the rows that occupy calendar
time. -/
def isActive (s : BookingStatus) : Bool :=
  s == .pending || s == .approved

/-- A `bookings` row, restricted to the columns the engine reads
(`id`, `date`, `time`, `duration_minutes`, `occupy_minutes`, `status`). -/
structure Booking where
  id : Nat
  date : Int
  time : Int
  durationMinutes : Int
  occupyMinutes : Option Int
  status : BookingStatus
deriving DecidableEq, Repr

/-- The occupancy `create_booking_atomic` attributes to an existing row:
`occupy_minutes` when stored, else the raw `duration_minutes`
(`occ_existing = int(occ_db) if occ_db is not None else int(dur)`). -/
def rawOcc (b : Booking) : Int :=
  match b.occupyMinutes with
  | some o => o
  | none => b.durationMinutes

/-- Modelled from the spec: the Occupancy-Model occupied span of a stored
booking per §3/§4.2/§4.5 — the stored `occupy_minutes` when present, else
the value *derived* from `duration_minutes` via `occupy`.  Used only to
compare the spec's reading with the source's `rawOcc`. -/
def specOcc (shop : ShopSettings) (b : Booking) : Int :=
  match b.occupyMinutes with
  | some o => o
  | none => shop.occupy b.durationMinutes

/-- A `weekly_schedule` row as returned by `get_day_schedule`
(times as minutes, `none` for NULL/empty). -/
structure DayScheduleRow where
  isWorking : Bool
  workStart : Option Int
  workEnd : Option Int
deriving DecidableEq, Repr

/-- A `schedule_breaks` row as returned by `get_breaks_for_weekday`
(already restricted to `is_enabled = 1` and the weekday or NULL). -/
structure BreakRow where
  startTime : Option Int
  endTime : Option Int
deriving DecidableEq, Repr

/-- A full `schedule_breaks` row, as stored in the table. -/
structure DBBreakRow where
  weekday : Option Int
  startTime : Option Int
  endTime : Option Int
  isEnabled : Bool
deriving DecidableEq, Repr

/-- The database state contended by the engine: the `bookings` table plus
the configuration tables (`schedule_breaks`, `days_off`,
`weekly_schedule`, `shop_settings`) and the autoincrement counter. -/
structure DBState where
  bookings : List Booking
  breaks : List DBBreakRow
  daysOff : List Int
  schedule : List (Int × DayScheduleRow)
  shop : ShopSettings
  nextId : Nat
deriving DecidableEq, Repr

/-- `database.create_booking_atomic`, one SQLite `BEGIN IMMEDIATE`
transaction: select the `pending`/`approved` rows of the date, test the
candidate interval `[time, time + (occupy_minutes ?: duration_minutes))`
against each row's `[s, s + (occ_db ?: dur))`, and either `ROLLBACK` and
raise `ValueError("TIME_SLOT_ALREADY_TAKEN")` (state unchanged) or insert
the row and commit.  Columns not read by the engine are dropped. -/
def createBookingAtomic (st : DBState) (dateStr : Int) (timeMin : Int)
    (durationMinutes : Int) (status : BookingStatus) (occupyMinutes : Option Int) :
    DBState × Except String Nat :=
  let newStart := timeMin
  let occNew := occupyMinutes.getD durationMinutes
  let newEnd := newStart + occNew
  let rows := st.bookings.filter (fun b => b.date == dateStr && isActive b.status)
  if rows.any (fun b => intervalsOverlap newStart newEnd b.time (b.time + rawOcc b)) then
    (st, Except.error "TIME_SLOT_ALREADY_TAKEN")
  else
    let nb : Booking :=
      { id := st.nextId, date := dateStr, time := timeMin,
        durationMinutes := durationMinutes, occupyMinutes := occupyMinutes,
        status := status }
    ({ st with bookings := st.bookings ++ [nb], nextId := st.nextId + 1 },
     Except.ok st.nextId)

/-- `database.update_booking_status`: `UPDATE bookings SET status = ? WHERE
id = ?`. -/
def updateBookingStatus (bs : List Booking) (id : Nat) (s : BookingStatus) : List Booking :=
  bs.map (fun b => if b.id == id then { b with status := s } else b)

/-- The occupancy `approve_booking` attributes to an existing row: stored
`occupy_minutes` when present, else `_booking_occupy_minutes` of its
duration under the current shop settings. -/
def approveOcc (shop : ShopSettings) (b : Booking) : Int :=
  match b.occupyMinutes with
  | some o => o
  | none => shop.occupy b.durationMinutes

/-- `admin_handlers.approve_booking` (the state-relevant part): look the
booking up by id (`get_booking_with_client_admin`, a LEFT JOIN, so the
row is found whether or not the client exists); bail out without any
transition when it is missing, already `approved`/`completed`, or
terminal; otherwise re-validate its interval — candidate end derived via
`_booking_occupy_minutes`, existing rows via stored-else-derived occupancy,
skipping the booking itself — and set the status to `rejected` on a
conflict, else to `approved`. -/
def approveBooking (st : DBState) (bookingId : Nat) : DBState :=
  match st.bookings.find? (fun b => b.id == bookingId) with
  | none => st
  | some b =>
    if b.status == .approved || b.status == .completed then st
    else if b.status == .rejected || b.status == .cancelledByClient
        || b.status == .cancelledByAdmin then st
    else
      let candS := b.time
      let candE := candS + st.shop.occupy b.durationMinutes
      let active := st.bookings.filter (fun x => x.date == b.date && isActive x.status)
      if active.any (fun x =>
          !(x.id == bookingId) && intervalsOverlap candS candE x.time (x.time + approveOcc st.shop x)) then
        { st with bookings := updateBookingStatus st.bookings bookingId .rejected }
      else
        { st with bookings := updateBookingStatus st.bookings bookingId .approved }

/-- The per-date data the slot path reads: `days_off` membership,
`get_day_schedule(date.weekday())`, `get_breaks_for_weekday` rows, shop
settings, the config fallback window (`settings.work_start_hour/…`), and
whether `date == date.today()` together with the current minute of day. -/
structure SlotEnv where
  isDayOff : Bool
  daySchedule : Option DayScheduleRow
  breakRows : List BreakRow
  shop : ShopSettings
  cfgWorkStartHour : Int
  cfgWorkEndHour : Int
  isToday : Bool
  nowMinutes : Int
deriving DecidableEq, Repr

/-- `client_handlers._is_working_date`: a day off is non-working; a missing
weekly-schedule row falls back to *working* (`return True  # fallback`);
otherwise the row's `is_working` flag. -/
def isWorkingDate (env : SlotEnv) : Bool :=
  if env.isDayOff then false
  else
    match env.daySchedule with
    | none => true
    | some info => info.isWorking

/-- `database.get_work_context_for_date` (the `is_working` resolution):
a day off, a missing weekly-schedule row, or `is_working = 0` all yield a
non-working context; else the row's window and the weekday's breaks. -/
def workContextForDate (env : SlotEnv) :
    Bool × Option Int × Option Int × List BreakRow :=
  if env.isDayOff then (false, none, none, [])
  else
    match env.daySchedule with
    | none => (false, none, none, [])
    | some day =>
      if !day.isWorking then (false, none, none, [])
      else (true, day.workStart, day.workEnd, env.breakRows)

/-- `client_handlers._get_work_window_minutes`: `none` when the schedule row
exists and is non-working; the row's window when both bounds are stored,
else the config fallback window; finally `none` unless `end > start`. -/
def workWindowMinutes (env : SlotEnv) : Option (Int × Int) :=
  let win : Option (Int × Int) :=
    match env.daySchedule with
    | some info =>
      if !info.isWorking then none
      else
        match info.workStart, info.workEnd with
        | some ws, some we => some (ws, we)
        | _, _ => some (env.cfgWorkStartHour * 60, env.cfgWorkEndHour * 60)
    | none => some (env.cfgWorkStartHour * 60, env.cfgWorkEndHour * 60)
  match win with
  | none => none
  | some (s, e) => if e ≤ s then none else some (s, e)

/-- `client_handlers._get_break_intervals`: keep rows with both times
present (truthy) and `end > start`, as minute pairs. -/
def breakIntervals (env : SlotEnv) : List (Int × Int) :=
  env.breakRows.filterMap (fun br =>
    match br.startTime, br.endTime with
    | some bs, some be => if be > bs then some (bs, be) else none
    | _, _ => none)

/-- The `while t < end_day` grid walk of `_generate_free_starts`, stepping
by `base_grid` and injecting the extra short-service candidate.  Structural
fuel recursion so the definition evaluates in the kernel; the wrapper
passes fuel that covers every iteration whenever `base_grid ≥ 1` (the
validated settings values are 30/60/90/120; for `base_grid ≤ 0` the Python
loop would not terminate). -/
def gridCandidatesFuel (endDay grid dur thr rest round : Int) :
    Nat → Int → List Int
  | 0, _ => []
  | fuel + 1, t =>
    if t < endDay then
      t ::
        ((if dur < thr then
            let offset := ceilToStep (dur + rest) round
            let extraStart := t + offset
            if extraStart < t + grid && extraStart + dur ≤ endDay then [extraStart] else []
          else []) ++
          gridCandidatesFuel endDay grid dur thr rest round fuel (t + grid))
    else []

/-- Insertion into a `≤`-sorted list (used to model Python's
`sorted(set(...))`). -/
def insertSorted (x : Int) : List Int → List Int
  | [] => [x]
  | y :: ys => if x ≤ y then x :: y :: ys else y :: insertSorted x ys

/-- Ascending insertion sort; applied after `List.dedup` this is exactly
Python's `sorted(set(l))`. -/
def sortInts (l : List Int) : List Int :=
  l.foldr insertSorted []

/-- `client_handlers._generate_free_starts`: returns the offered start
minutes for `duration_minutes` on the date described by `env`, given the
date's active bookings (the Python function takes them as its `active`
argument, reading only their `time` and `duration_minutes` keys). -/
def generateFreeStarts (env : SlotEnv) (durationMinutes : Int)
    (active : List Booking) : List Int :=
  if !isWorkingDate env then []
  else
    match workWindowMinutes env with
    | none => []
    | some (startDay, endDay) =>
      let baseGrid := env.shop.baseGridMinutes
      let shortThreshold := env.shop.shortServiceThresholdMinutes
      let restAfterShort := env.shop.restMinutesAfterShort
      let extraRound := env.shop.extraRoundMinutes
      let lead := env.shop.minLeadMinutes
      let busy : List (Int × Int) := active.map (fun b =>
        (b.time, b.time + bookingOccupyMinutes b.durationMinutes
          shortThreshold restAfterShort extraRound))
      let breaks := breakIntervals env
      let cutoff :=
        if env.isToday then max startDay (env.nowMinutes + lead) else startDay
      let first0 := (startDay.fdiv baseGrid) * baseGrid
      let first := if first0 < startDay then first0 + baseGrid else first0
      let candidates := gridCandidatesFuel endDay baseGrid durationMinutes
        shortThreshold restAfterShort extraRound ((endDay - first).toNat + 1) first
      let filtered := (sortInts candidates.dedup).filter (fun s =>
        !(s < startDay || s + durationMinutes > endDay) &&
        !(env.isToday && s < cutoff))
      filtered.filter (fun s =>
        busy.all (fun bi => !intervalsOverlap s (s + durationMinutes) bi.1 bi.2) &&
        breaks.all (fun bi => !intervalsOverlap s (s + durationMinutes) bi.1 bi.2))

/-- Modelled from the spec: `ceilToStep(v, step) = step * ceil(v / step)`
with the true mathematical ceiling (identity when `step ≤ 0`), for
comparison with the source's floor-division implementation. -/
def ceilToStepSpec (v step : Int) : Int :=
  if step ≤ 0 then v else step * ⌈(v : ℚ) / (step : ℚ)⌉

theorem ceilToStep_eq_ceil (v step : Int) (h : 0 < step) :
    ceilToStep v step = step * ⌈(v : ℚ) / (step : ℚ)⌉ := by
  unfold ceilToStep
  rw [if_neg (by omega), Int.fdiv_eq_ediv _ (le_of_lt h)]
  set q := (v + step - 1) / step with hq
  have hmod := Int.ediv_add_emod (v + step - 1) step
  have hr0 : 0 ≤ (v + step - 1) % step := Int.emod_nonneg _ (by omega)
  have hr1 : (v + step - 1) % step < step := Int.emod_lt_of_pos _ h
  have hsq : (0 : ℚ) < (step : ℚ) := by exact_mod_cast h
  have hceil : ⌈(v : ℚ) / (step : ℚ)⌉ = q := by
    rw [Int.ceil_eq_iff]
    constructor
    · rw [lt_div_iff₀ hsq]
      have hkey : (q - 1) * step < v := by nlinarith [hr0, hmod]
      exact_mod_cast hkey
    · rw [div_le_iff₀ hsq]
      have hkey : v ≤ q * step := by nlinarith [hr1, hmod]
      exact_mod_cast hkey
  rw [hceil, mul_comm]

theorem ceilToStep_eq_spec (v step : Int) :
    ceilToStep v step = ceilToStepSpec v step := by
  unfold ceilToStepSpec
  by_cases hs : step ≤ 0
  · simp [hs, ceilToStep]
  · rw [if_neg hs]
    exact ceilToStep_eq_ceil v step (by omega)

/-- C5: for every duration and every shop settings, the code's occupancy
value is `ceilToStep(duration + restMinutesAfterShort, extraRoundMinutes)`
— with `ceilToStep(v, step) = step * ceil(v / step)`, identity for
`step ≤ 0` — when `duration < shortServiceThresholdMinutes`, and the
duration itself otherwise. -/
theorem occupancy_model_formula (shop : ShopSettings) (duration : Int) :
    shop.occupy duration =
      if duration < shop.shortServiceThresholdMinutes then
        ceilToStepSpec (duration + shop.restMinutesAfterShort) shop.extraRoundMinutes
      else duration := by
  unfold ShopSettings.occupy bookingOccupyMinutes
  split <;> simp [ceilToStep_eq_spec]

/-- The §8 extra-slot scenario: window 09:00–19:00, base grid 60, no
breaks, no bookings, not today; threshold 40, rest 5, extra round 15. -/
def extraSlotEnv : SlotEnv :=
  { isDayOff := false,
    daySchedule := some { isWorking := true, workStart := some 540, workEnd := some 1140 },
    breakRows := [],
    shop := { baseGridMinutes := 60, shortServiceThresholdMinutes := 40,
              restMinutesAfterShort := 5, extraRoundMinutes := 15,
              minLeadMinutes := 0 },
    cfgWorkStartHour := 10, cfgWorkEndHour := 19,
    isToday := false, nowMinutes := 0 }

/-- C7, counterexample: in the extra-slot scenario the extra offset is
`ceilToStep(15+5, 15) = 30`, not `20` as claimed (20 is not a multiple of
15), and the claimed slot 09:20 (minute 560) is not offered. -/
theorem extra_slot_scenario_cex :
    ceilToStep (15 + 5) 15 = 30 ∧
      (560 : Int) ∉ generateFreeStarts extraSlotEnv 15 [] := by
  decide

/-- C7, amended: in the extra-slot scenario the extra offset at each grid
point is `ceilToStep(15+5, 15) = 30`, so the offered starts are
09:00, 09:30, 10:00, 10:30, … — an extra candidate 30 minutes after each
base grid point. -/
theorem extra_slot_scenario :
    generateFreeStarts extraSlotEnv 15 [] =
      [540, 570, 600, 630, 660, 690, 720, 750, 780, 810,
       840, 870, 900, 930, 960, 990, 1020, 1050, 1080, 1110] := by
  decide

/-- C4: every start returned by `_generate_free_starts(date, d)` lies at or
after the cutoff (`max(workStart, now + minLeadMinutes)` when the date is
today, else `workStart`), finishes inside the work window, and its
interval `[start, start + d)` overlaps no active booking's occupied
interval (as derived by the generator from `duration_minutes` via the
Occupancy Model) and no break interval of the date. -/
theorem free_starts_valid (env : SlotEnv) (dur : Int) (active : List Booking)
    (s : Int) (hs : s ∈ generateFreeStarts env dur active) :
    ∃ ws we, workWindowMinutes env = some (ws, we) ∧
      (if env.isToday then max ws (env.nowMinutes + env.shop.minLeadMinutes) else ws) ≤ s ∧
      s + dur ≤ we ∧
      (∀ b ∈ active,
        intervalsOverlap s (s + dur) b.time (b.time + env.shop.occupy b.durationMinutes) = false) ∧
      (∀ br ∈ breakIntervals env, intervalsOverlap s (s + dur) br.1 br.2 = false) := by
  unfold generateFreeStarts at hs
  by_cases hW : isWorkingDate env = true
  · simp only [hW, Bool.not_true, Bool.false_eq_true, if_false] at hs
    cases hwin : workWindowMinutes env with
    | none => rw [hwin] at hs; simp at hs
    | some p =>
      obtain ⟨ws, we⟩ := p
      rw [hwin] at hs
      simp only [List.mem_filter, Bool.and_eq_true, List.all_eq_true, List.mem_map,
        Bool.not_eq_true', Bool.or_eq_true, decide_eq_true_eq, not_or, not_and,
        not_lt, forall_exists_index] at hs
      obtain ⟨⟨hmem, h1, h2⟩, hbusy, hbreaks⟩ := hs
      simp only [Bool.or_eq_false_iff, decide_eq_false_iff_not, not_lt] at h1
      refine ⟨ws, we, rfl, ?_, h1.2, ?_, hbreaks⟩
      · by_cases ht : env.isToday = true
        · simp only [ht, Bool.true_and, decide_eq_false_iff_not, not_lt, if_true] at h2 ⊢
          exact h2
        · rw [if_neg ht]
          exact h1.1
      · intro b hb
        exact hbusy _ b ⟨hb, rfl⟩
  · simp [hW] at hs

/-- Witness for `free_starts_valid` at the extra-slot environment and the
offered start 09:00. -/
theorem free_starts_valid_witness :
    ∃ ws we, workWindowMinutes extraSlotEnv = some (ws, we) ∧
      (if extraSlotEnv.isToday then
        max ws (extraSlotEnv.nowMinutes + extraSlotEnv.shop.minLeadMinutes) else ws) ≤ 540 ∧
      (540 : Int) + 15 ≤ we ∧
      (∀ b ∈ ([] : List Booking),
        intervalsOverlap 540 (540 + 15) b.time
          (b.time + extraSlotEnv.shop.occupy b.durationMinutes) = false) ∧
      (∀ br ∈ breakIntervals extraSlotEnv,
        intervalsOverlap 540 (540 + 15) br.1 br.2 = false) :=
  free_starts_valid extraSlotEnv 15 [] 540 (by decide)

/-- A date whose weekday has no `weekly_schedule` row: not a day off, no
breaks, default config window 10:00–19:00, default shop settings. -/
def noScheduleEnv : SlotEnv :=
  { isDayOff := false,
    daySchedule := none,
    breakRows := [],
    shop := { baseGridMinutes := 60, shortServiceThresholdMinutes := 40,
              restMinutesAfterShort := 5, extraRoundMinutes := 15,
              minLeadMinutes := 0 },
    cfgWorkStartHour := 10, cfgWorkEndHour := 19,
    isToday := false, nowMinutes := 0 }

/-- C6, counterexample: with no schedule row for the weekday (and the date
not a day off), `_is_working_date` reports the day *working* and
`_generate_free_starts` offers the config-default window 10:00–19:00 —
the slot list is not empty, refuting the fail-closed claim. -/
theorem fail_closed_cex :
    isWorkingDate noScheduleEnv = true ∧
      generateFreeStarts noScheduleEnv 40 [] =
        [600, 660, 720, 780, 840, 900, 960, 1020, 1080] := by
  decide

/-- C6, amended: for a date whose weekday has no `weekly_schedule` row,
`get_work_context_for_date` does report the day non-working (fail closed),
but the slot path's `_is_working_date` falls back to *working* whenever
the date is not a day off, so `_generate_free_starts` proceeds with the
config-default window instead of returning the empty list. -/
theorem fail_closed_split (env : SlotEnv) (h : env.daySchedule = none) :
    (workContextForDate env).1 = false ∧
      (env.isDayOff = false → isWorkingDate env = true) := by
  constructor
  · unfold workContextForDate
    by_cases hd : env.isDayOff = true
    · simp [hd]
    · simp [hd, h]
  · intro hoff
    unfold isWorkingDate
    simp [hoff, h]

/-- Witness for `fail_closed_split` at `noScheduleEnv`. -/
theorem fail_closed_split_witness :
    (workContextForDate noScheduleEnv).1 = false ∧
      (noScheduleEnv.isDayOff = false → isWorkingDate noScheduleEnv = true) :=
  fail_closed_split noScheduleEnv rfl

/-- Unfolding equation for `createBookingAtomic`. -/
theorem createBookingAtomic_eq (st : DBState) (d t dur : Int)
    (status : BookingStatus) (occ : Option Int) :
    createBookingAtomic st d t dur status occ =
      if (st.bookings.filter (fun b => b.date == d && isActive b.status)).any
          (fun b => intervalsOverlap t (t + occ.getD dur) b.time (b.time + rawOcc b)) then
        (st, Except.error "TIME_SLOT_ALREADY_TAKEN")
      else
        ({ st with
            bookings := st.bookings ++
              [{ id := st.nextId, date := d, time := t, durationMinutes := dur,
                 occupyMinutes := occ, status := status }],
            nextId := st.nextId + 1 },
         Except.ok st.nextId) := rfl

/-- C3, amended: `create_booking_atomic` raises
`ValueError("TIME_SLOT_ALREADY_TAKEN")` iff the new booking's interval
(`occupy_minutes` override when supplied, else `duration_minutes`)
overlaps `[s, s + occ)` of some existing pending/approved booking on the
date, where `occ` is that row's stored `occupy_minutes` when present and
its *raw* `duration_minutes` otherwise (the code does not re-derive it via
the Occupancy Model); on failure the table is unchanged, and on success
exactly one row with status `pending` is appended. -/
theorem admission_contract (st : DBState) (d t dur : Int) (occ : Option Int) :
    ((createBookingAtomic st d t dur .pending occ).2 =
        Except.error "TIME_SLOT_ALREADY_TAKEN" ↔
      ∃ b ∈ st.bookings, b.date = d ∧ isActive b.status = true ∧
        intervalsOverlap t (t + occ.getD dur) b.time (b.time + rawOcc b) = true) ∧
    ((createBookingAtomic st d t dur .pending occ).2 =
        Except.error "TIME_SLOT_ALREADY_TAKEN" →
      (createBookingAtomic st d t dur .pending occ).1 = st) ∧
    (∀ id, (createBookingAtomic st d t dur .pending occ).2 = Except.ok id →
      (createBookingAtomic st d t dur .pending occ).1.bookings =
        st.bookings ++
          [{ id := st.nextId, date := d, time := t, durationMinutes := dur,
             occupyMinutes := occ, status := .pending }]) := by
  rw [createBookingAtomic_eq]
  by_cases hany : (st.bookings.filter (fun b => b.date == d && isActive b.status)).any
      (fun b => intervalsOverlap t (t + occ.getD dur) b.time (b.time + rawOcc b)) = true
  · rw [if_pos hany]
    refine ⟨?_, fun _ => rfl, fun id h => nomatch h⟩
    simp only [List.any_eq_true, List.mem_filter, Bool.and_eq_true, beq_iff_eq] at hany
    obtain ⟨b, ⟨hb, hd, ha⟩, hov⟩ := hany
    exact ⟨fun _ => ⟨b, hb, hd, ha, hov⟩, fun _ => rfl⟩
  · rw [if_neg hany]
    refine ⟨?_, ?_, ?_⟩
    · simp only [Bool.not_eq_true, List.any_eq_false, List.mem_filter, Bool.and_eq_true,
        beq_iff_eq] at hany
      constructor
      · intro h; exact nomatch h
      · rintro ⟨b, hb, hd, ha, hov⟩
        exact absurd hov (by simpa using hany b ⟨hb, hd, ha⟩)
    · intro h; exact nomatch h
    · intro id _; rfl

/-- A table holding one pending short booking stored without
`occupy_minutes` (as `create_booking_atomic` itself produces when the
caller omits the override), under the default shop settings. -/
def nullOccState : DBState :=
  { bookings := [{ id := 0, date := 0, time := 600, durationMinutes := 15,
                   occupyMinutes := none, status := .pending }],
    breaks := [], daysOff := [], schedule := [],
    shop := { baseGridMinutes := 60, shortServiceThresholdMinutes := 40,
              restMinutesAfterShort := 5, extraRoundMinutes := 15,
              minLeadMinutes := 0 },
    nextId := 1 }

/-- C3, counterexample: in `nullOccState` the stored booking's
Occupancy-Model occupied interval is `[600, 630)` (duration 15 is short,
so `occupy = ceilToStep(15+5, 15) = 30`), which overlaps the requested
interval `[615, 630)` — yet `create_booking_atomic` succeeds, because for
a row with NULL `occupy_minutes` it checks against the raw duration
interval `[600, 615)` only.  This refutes the claimed "iff". -/
theorem admission_contract_cex :
    (∃ b ∈ nullOccState.bookings, b.date = 0 ∧ isActive b.status = true ∧
      intervalsOverlap 615 (615 + (none : Option Int).getD 15) b.time
        (b.time + specOcc nullOccState.shop b) = true) ∧
    (createBookingAtomic nullOccState 0 615 15 .pending none).2 =
      Except.ok 1 :=
  ⟨by decide, rfl⟩

/-- The seeded default `shop_settings` row (grid 60, short threshold 40,
rest 5, extra round 15, lead 0). -/
def defaultShop : ShopSettings :=
  { baseGridMinutes := 60, shortServiceThresholdMinutes := 40,
    restMinutesAfterShort := 5, extraRoundMinutes := 15, minLeadMinutes := 0 }

/-- A freshly initialised database: no bookings, no breaks, no days off,
no schedule rows, given shop settings. -/
def emptyDB (shop : ShopSettings) : DBState :=
  { bookings := [], breaks := [], daysOff := [], schedule := [],
    shop := shop, nextId := 0 }

/-- C2: race safety.  `BEGIN IMMEDIATE` serialises the two admissions, so
a concurrent pair is one of the two sequential orders; in either order, if
the first admission of an interval `[t, t + occ)` (with `occ` the override
when supplied, else the duration; the interval is non-empty) succeeds,
the second admission of the same exact interval on the same date fails
with `ValueError("TIME_SLOT_ALREADY_TAKEN")` — so at most one succeeds. -/
theorem race_safety (st : DBState) (d t dur : Int) (occ : Option Int)
    (st' : DBState) (id : Nat)
    (hpos : 0 < occ.getD dur)
    (h1 : createBookingAtomic st d t dur .pending occ = (st', Except.ok id)) :
    (createBookingAtomic st' d t dur .pending occ).2 =
      Except.error "TIME_SLOT_ALREADY_TAKEN" := by
  rw [createBookingAtomic_eq] at h1
  by_cases hany : (st.bookings.filter (fun b => b.date == d && isActive b.status)).any
      (fun b => intervalsOverlap t (t + occ.getD dur) b.time (b.time + rawOcc b)) = true
  · rw [if_pos hany] at h1
    exact nomatch congrArg Prod.snd h1
  · rw [if_neg hany] at h1
    injection h1 with hA hB
    subst hA
    rw [createBookingAtomic_eq]
    rw [if_pos ?hc]
    case hc =>
      apply List.any_eq_true.mpr
      refine ⟨⟨st.nextId, d, t, dur, occ, .pending⟩, ?_, ?_⟩
      · apply List.mem_filter.mpr
        exact ⟨List.mem_append_right _ (List.mem_singleton_self _), by simp [isActive]⟩
      · show intervalsOverlap t (t + occ.getD dur) t
          (t + rawOcc ⟨st.nextId, d, t, dur, occ, .pending⟩) = true
        have hro : rawOcc ⟨st.nextId, d, t, dur, occ, .pending⟩ = occ.getD dur := by
          cases occ <;> rfl
        rw [hro]
        simp only [intervalsOverlap, Bool.and_eq_true, decide_eq_true_eq]
        omega

/-- Witness for `race_safety`: two admissions of `[600, 640)` on the same
date starting from an empty table — the second fails. -/
theorem race_safety_witness :
    (createBookingAtomic
      { bookings := [⟨0, 0, 600, 40, some 40, .pending⟩], breaks := [], daysOff := [],
        schedule := [], shop := defaultShop, nextId := 1 } 0 600 40 .pending (some 40)).2 =
      Except.error "TIME_SLOT_ALREADY_TAKEN" :=
  race_safety (emptyDB defaultShop) 0 600 40 (some 40) _ 0 (by decide) rfl

/-- C8: applied to a pending booking, the approval transition sets the
status to `rejected` when the booking's occupied interval (derived from
its duration via the Occupancy Model) overlaps the occupied interval
(stored `occupy_minutes`, else derived) of some *other* active booking on
the same date, and to `approved` when no such overlap exists; a booking
in a terminal status is not transitioned at all. -/
theorem approval_revalidation (st : DBState) (bid : Nat) (b : Booking)
    (hfind : st.bookings.find? (fun x => x.id == bid) = some b) :
    (b.status = .pending →
      ((∃ x ∈ st.bookings, x.id ≠ bid ∧ x.date = b.date ∧ isActive x.status = true ∧
          intervalsOverlap b.time (b.time + st.shop.occupy b.durationMinutes)
            x.time (x.time + approveOcc st.shop x) = true) →
        approveBooking st bid =
          { st with bookings := updateBookingStatus st.bookings bid .rejected }) ∧
      (¬(∃ x ∈ st.bookings, x.id ≠ bid ∧ x.date = b.date ∧ isActive x.status = true ∧
          intervalsOverlap b.time (b.time + st.shop.occupy b.durationMinutes)
            x.time (x.time + approveOcc st.shop x) = true) →
        approveBooking st bid =
          { st with bookings := updateBookingStatus st.bookings bid .approved })) ∧
    ((b.status = .completed ∨ b.status = .rejected ∨ b.status = .cancelledByClient ∨
        b.status = .cancelledByAdmin) →
      approveBooking st bid = st) := by
  unfold approveBooking
  rw [hfind]
  obtain ⟨bId, bDate, bTime, bDur, bOcc, bStatus⟩ := b
  constructor
  · intro hp
    cases hp
    have hany_iff :
        ((st.bookings.filter (fun x => x.date == bDate && isActive x.status)).any
          (fun x => !(x.id == bid) &&
            intervalsOverlap bTime (bTime + st.shop.occupy bDur)
              x.time (x.time + approveOcc st.shop x)) = true) ↔
        (∃ x ∈ st.bookings, x.id ≠ bid ∧ x.date = bDate ∧ isActive x.status = true ∧
          intervalsOverlap bTime (bTime + st.shop.occupy bDur)
            x.time (x.time + approveOcc st.shop x) = true) := by
      simp only [List.any_eq_true, List.mem_filter, Bool.and_eq_true, beq_iff_eq,
        Bool.not_eq_true', beq_eq_false_iff_ne, ne_eq]
      constructor
      · rintro ⟨x, ⟨hx, hd, ha⟩, hne, hov⟩
        exact ⟨x, hx, hne, hd, ha, hov⟩
      · rintro ⟨x, hx, hne, hd, ha, hov⟩
        exact ⟨x, ⟨hx, hd, ha⟩, hne, hov⟩
    constructor
    · intro hex
      rw [← hany_iff] at hex
      simp only [hex]
      rfl
    · intro hnex
      rw [← hany_iff] at hnex
      simp only [Bool.not_eq_true] at hnex
      simp only [hnex]
      rfl
  · intro hterm
    rcases hterm with h | h | h | h <;> (cases h; rfl)

/-- A table with one pending booking `[600, 640)`, stored occupancy 40. -/
def pendingApproveState : DBState :=
  { bookings := [⟨0, 0, 600, 40, some 40, .pending⟩],
    breaks := [], daysOff := [], schedule := [],
    shop := defaultShop, nextId := 1 }

/-- Witness for `approval_revalidation` at `pendingApproveState` and its
only (pending) booking. -/
theorem approval_revalidation_witness :
    ((BookingStatus.pending = .pending →
      ((∃ x ∈ pendingApproveState.bookings, x.id ≠ 0 ∧ x.date = (0 : Int) ∧
          isActive x.status = true ∧
          intervalsOverlap 600 (600 + pendingApproveState.shop.occupy 40)
            x.time (x.time + approveOcc pendingApproveState.shop x) = true) →
        approveBooking pendingApproveState 0 =
          { pendingApproveState with
              bookings := updateBookingStatus pendingApproveState.bookings 0 .rejected }) ∧
      (¬(∃ x ∈ pendingApproveState.bookings, x.id ≠ 0 ∧ x.date = (0 : Int) ∧
          isActive x.status = true ∧
          intervalsOverlap 600 (600 + pendingApproveState.shop.occupy 40)
            x.time (x.time + approveOcc pendingApproveState.shop x) = true) →
        approveBooking pendingApproveState 0 =
          { pendingApproveState with
              bookings := updateBookingStatus pendingApproveState.bookings 0 .approved })) ∧
    ((BookingStatus.pending = .completed ∨ BookingStatus.pending = .rejected ∨
        BookingStatus.pending = .cancelledByClient ∨
        BookingStatus.pending = .cancelledByAdmin) →
      approveBooking pendingApproveState 0 = pendingApproveState)) :=
  approval_revalidation pendingApproveState 0 ⟨0, 0, 600, 40, some 40, .pending⟩ rfl

/-- C9: the atomic admission consults only the `bookings` table — its
outcome and the resulting booking rows are unchanged under any replacement
of the `schedule_breaks`, `days_off` and `weekly_schedule` tables — and
whenever the requested interval overlaps no active booking of the date it
succeeds and returns a booking id, regardless of breaks, work window or
days off. -/
theorem admission_reads_only_bookings (st : DBState) (brs : List DBBreakRow)
    (doff : List Int) (sch : List (Int × DayScheduleRow))
    (d t dur : Int) (status : BookingStatus) (occ : Option Int) :
    ((createBookingAtomic { st with breaks := brs, daysOff := doff, schedule := sch }
        d t dur status occ).2 = (createBookingAtomic st d t dur status occ).2 ∧
     (createBookingAtomic { st with breaks := brs, daysOff := doff, schedule := sch }
        d t dur status occ).1.bookings =
       (createBookingAtomic st d t dur status occ).1.bookings) ∧
    ((∀ b ∈ st.bookings, b.date = d → isActive b.status = true →
        intervalsOverlap t (t + occ.getD dur) b.time (b.time + rawOcc b) = false) →
      (createBookingAtomic st d t dur status occ).2 = Except.ok st.nextId) := by
  have hfree : ∀ u : DBState, u.bookings = st.bookings → u.nextId = st.nextId →
      createBookingAtomic u d t dur status occ =
        if (st.bookings.filter (fun b => b.date == d && isActive b.status)).any
            (fun b => intervalsOverlap t (t + occ.getD dur) b.time (b.time + rawOcc b)) then
          (u, Except.error "TIME_SLOT_ALREADY_TAKEN")
        else
          ({ u with
              bookings := st.bookings ++
                [{ id := st.nextId, date := d, time := t, durationMinutes := dur,
                   occupyMinutes := occ, status := status }],
              nextId := st.nextId + 1 },
           Except.ok st.nextId) := by
    intro u hb hn
    rw [createBookingAtomic_eq, hb, hn]
  constructor
  · rw [hfree { st with breaks := brs, daysOff := doff, schedule := sch } rfl rfl,
      hfree st rfl rfl]
    by_cases hc : (st.bookings.filter (fun b => b.date == d && isActive b.status)).any
        (fun b => intervalsOverlap t (t + occ.getD dur) b.time (b.time + rawOcc b)) = true
    · rw [if_pos hc, if_pos hc]
      exact ⟨rfl, rfl⟩
    · rw [if_neg hc, if_neg hc]
      exact ⟨rfl, rfl⟩
  · intro hno
    rw [hfree st rfl rfl]
    rw [if_neg ?hne]
    case hne =>
      simp only [List.any_eq_true, List.mem_filter, Bool.and_eq_true, beq_iff_eq]
      rintro ⟨b, ⟨hb, hd, ha⟩, hov⟩
      exact absurd hov (by simp [hno b hb hd ha])

/-- A state whose date 0 is a day off, whose weekday-0 schedule row is
non-working, and which has a global enabled break `[780, 840)` — but no
bookings. -/
def dayOffBreakState : DBState :=
  { bookings := [],
    breaks := [{ weekday := none, startTime := some 780, endTime := some 840,
                 isEnabled := true }],
    daysOff := [0],
    schedule := [(0, { isWorking := false, workStart := some 540, workEnd := some 1140 })],
    shop := defaultShop, nextId := 0 }

/-- Witness for `admission_reads_only_bookings`: an admission of exactly
the break interval `[780, 840)` on a day off with a non-working schedule
row still succeeds. -/
theorem admission_reads_only_bookings_witness :
    (createBookingAtomic dayOffBreakState 0 780 60 .pending (some 60)).2 =
      Except.ok 0 :=
  (admission_reads_only_bookings dayOffBreakState [] [] [] 0 780 60
    .pending (some 60)).2 (by decide)

/-- C10: `_generate_free_starts` never reads the stored `occupy_minutes`
of the active bookings it is given — its output is invariant under any
rewriting of that column — and for a booking whose stored value differs
from the value derived from its duration under the current settings, the
generator's busy interval end and the admission check's interval end for
that same booking differ. -/
theorem generator_ignores_stored_occupancy (env : SlotEnv) (dur : Int)
    (active : List Booking) (f : Booking → Option Int) (shop : ShopSettings)
    (b : Booking) (o : Int) :
    generateFreeStarts env dur (active.map (fun x => { x with occupyMinutes := f x })) =
      generateFreeStarts env dur active ∧
    (b.occupyMinutes = some o → o ≠ shop.occupy b.durationMinutes →
      b.time + shop.occupy b.durationMinutes ≠ b.time + rawOcc b) := by
  constructor
  · unfold generateFreeStarts
    cases hw : workWindowMinutes env with
    | none => rfl
    | some p => simp only [List.map_map]; rfl
  · intro hb hne
    simp only [rawOcc, hb]
    omega

/-- Witness for `generator_ignores_stored_occupancy`: erasing a stored
occupancy of 90 from a 60-minute approved booking leaves the slot list
unchanged, while the generator's interval end `600 + 60` differs from the
admission check's `600 + 90`. -/
theorem generator_ignores_stored_occupancy_witness :
    generateFreeStarts extraSlotEnv 30
        ([(⟨0, 0, 600, 60, some 90, .approved⟩ : Booking)].map
          (fun x => { x with occupyMinutes := (fun _ => (none : Option Int)) x })) =
      generateFreeStarts extraSlotEnv 30 [(⟨0, 0, 600, 60, some 90, .approved⟩ : Booking)] ∧
    (600 : Int) + defaultShop.occupy 60 ≠
      600 + rawOcc ⟨0, 0, 600, 60, some 90, .approved⟩ :=
  ⟨(generator_ignores_stored_occupancy extraSlotEnv 30
      [(⟨0, 0, 600, 60, some 90, .approved⟩ : Booking)] (fun _ => none) defaultShop
      ⟨0, 0, 600, 60, some 90, .approved⟩ 90).1,
   (generator_ignores_stored_occupancy extraSlotEnv 30
      [(⟨0, 0, 600, 60, some 90, .approved⟩ : Booking)] (fun _ => none) defaultShop
      ⟨0, 0, 600, 60, some 90, .approved⟩ 90).2 rfl (by decide)⟩

/-- Two bookings conflict-free in the sense the admission check itself
uses: if they share a date and are both active, their intervals
`[time, time + rawOcc)` do not overlap. -/
abbrev conflictFreeRaw (a b : Booking) : Prop :=
  a.date = b.date → isActive a.status = true → isActive b.status = true →
    intervalsOverlap a.time (a.time + rawOcc a) b.time (b.time + rawOcc b) = false

/-- No-overlap of the stored-else-raw-duration intervals over a table. -/
abbrev NoOverlapRaw (bs : List Booking) : Prop :=
  bs.Pairwise conflictFreeRaw

/-- Modelled from the spec (the claimed invariant): no-overlap of the
Occupancy-Model occupied intervals (`specOcc`: stored `occupy_minutes`
when present, else derived from the duration) of distinct active bookings
sharing a date. -/
abbrev NoOverlapSpec (shop : ShopSettings) (bs : List Booking) : Prop :=
  bs.Pairwise (fun a b =>
    a.date = b.date → isActive a.status = true → isActive b.status = true →
      intervalsOverlap a.time (a.time + specOcc shop a)
        b.time (b.time + specOcc shop b) = false)

/-- C1, counterexample: from the empty table, an admission of `[600, 615)`
(duration 15, no stored occupancy) reaches `nullOccState`, whose
Occupancy-Model intervals are overlap-free; a second admission at 615
(duration 15, no stored occupancy) then *succeeds*, although the two
derived occupied intervals `[600, 630)` and `[615, 645)` overlap — the
claimed invariant is not preserved by this admission. -/
theorem no_overlap_invariant_cex :
    (createBookingAtomic (emptyDB defaultShop) 0 600 15 .pending none).1 =
      nullOccState ∧
    NoOverlapSpec defaultShop nullOccState.bookings ∧
    (createBookingAtomic nullOccState 0 615 15 .pending none).2 = Except.ok 1 ∧
    ¬ NoOverlapSpec defaultShop
        (createBookingAtomic nullOccState 0 615 15 .pending none).1.bookings :=
  ⟨rfl, by decide, rfl, by decide⟩

theorem intervalsOverlap_symm (a b c d : Int) :
    intervalsOverlap a b c d = intervalsOverlap c d a b := by
  simp only [intervalsOverlap]
  exact Bool.and_comm _ _

/-- Well-formed ids: the `id` column is a key (SQLite `INTEGER PRIMARY
KEY`) and every id is below the autoincrement counter. -/
def WFIds (st : DBState) : Prop :=
  (st.bookings.map Booking.id).Nodup ∧ ∀ b ∈ st.bookings, b.id < st.nextId

theorem updateBookingStatus_map_id (bs : List Booking) (bid : Nat) (s : BookingStatus) :
    (updateBookingStatus bs bid s).map Booking.id = bs.map Booking.id := by
  unfold updateBookingStatus
  rw [List.map_map]
  apply List.map_congr_left
  intro b _
  simp only [Function.comp_apply]
  split <;> rfl

theorem create_preserves_WFIds (st : DBState) (d t dur : Int)
    (status : BookingStatus) (occ : Option Int) (h : WFIds st) :
    WFIds (createBookingAtomic st d t dur status occ).1 := by
  rw [createBookingAtomic_eq]
  by_cases hc : (st.bookings.filter (fun b => b.date == d && isActive b.status)).any
      (fun b => intervalsOverlap t (t + occ.getD dur) b.time (b.time + rawOcc b)) = true
  · rw [if_pos hc]; exact h
  · rw [if_neg hc]
    obtain ⟨hnd, hlt⟩ := h
    constructor
    · rw [List.map_append, List.nodup_append]
      refine ⟨hnd, List.nodup_singleton _, ?_⟩
      intro x hx hx1
      simp only [List.map_cons, List.map_nil, List.mem_singleton] at hx1
      subst hx1
      obtain ⟨b, hb, hbid⟩ := List.mem_map.mp hx
      exact absurd hbid (Nat.ne_of_lt (hlt b hb))
    · intro b hb
      rcases List.mem_append.mp hb with h1 | h1
      · exact Nat.lt_succ_of_lt (hlt b h1)
      · rw [List.mem_singleton.mp h1]
        exact Nat.lt_succ_self _

theorem create_preserves_NoOverlapRaw (st : DBState) (d t dur : Int)
    (status : BookingStatus) (occ : Option Int) (h : NoOverlapRaw st.bookings) :
    NoOverlapRaw (createBookingAtomic st d t dur status occ).1.bookings := by
  rw [createBookingAtomic_eq]
  by_cases hc : (st.bookings.filter (fun b => b.date == d && isActive b.status)).any
      (fun b => intervalsOverlap t (t + occ.getD dur) b.time (b.time + rawOcc b)) = true
  · rw [if_pos hc]; exact h
  · rw [if_neg hc]
    refine List.pairwise_append.mpr ⟨h, List.pairwise_singleton _ _, ?_⟩
    intro a ha nb hnb
    rw [List.mem_singleton] at hnb
    subst hnb
    intro hdate hactA hactNb
    simp only [Bool.not_eq_true] at hc
    rw [List.any_eq_false] at hc
    have hmem : a ∈ st.bookings.filter (fun b => b.date == d && isActive b.status) := by
      rw [List.mem_filter]
      exact ⟨ha, by simp [hdate, hactA]⟩
    have hov := hc a hmem
    simp only [Bool.not_eq_true] at hov
    have hro : rawOcc ⟨st.nextId, d, t, dur, occ, status⟩ = occ.getD dur := by
      cases occ <;> rfl
    show intervalsOverlap a.time (a.time + rawOcc a) t (t + rawOcc _) = false
    rw [hro, intervalsOverlap_symm]
    exact hov

theorem updateBookingStatus_WFIds (st : DBState) (bid : Nat) (s' : BookingStatus)
    (h : WFIds st) :
    WFIds { st with bookings := updateBookingStatus st.bookings bid s' } := by
  obtain ⟨hnd, hlt⟩ := h
  constructor
  · show (updateBookingStatus st.bookings bid s').map Booking.id |>.Nodup
    rw [updateBookingStatus_map_id]
    exact hnd
  · intro x hx
    obtain ⟨a, ha, hfa⟩ := List.mem_map.mp hx
    have hid : x.id = a.id := by
      subst hfa
      split <;> rfl
    show x.id < st.nextId
    rw [hid]
    exact hlt a ha

theorem noOverlapRaw_update (bs : List Booking) (bid : Nat) (s' : BookingStatus)
    (hact : ∀ x ∈ bs, x.id = bid → isActive s' = true → isActive x.status = true)
    (h : NoOverlapRaw bs) :
    NoOverlapRaw (updateBookingStatus bs bid s') := by
  unfold updateBookingStatus
  refine List.pairwise_map.mpr (List.Pairwise.imp_of_mem ?_ h)
  intro a c ha hc hR
  rcases Bool.eq_false_or_eq_true (a.id == bid) with h1 | h1 <;>
    rcases Bool.eq_false_or_eq_true (c.id == bid) with h2 | h2 <;>
      simp only [h1, h2, if_true, if_false, Bool.false_eq_true, Bool.true_eq_false] <;>
      intro hdate hactA hactC
  · exact hR hdate (hact a ha (by simpa using h1) hactA)
      (hact c hc (by simpa using h2) hactC)
  · exact hR hdate (hact a ha (by simpa using h1) hactA) hactC
  · exact hR hdate hactA (hact c hc (by simpa using h2) hactC)
  · exact hR hdate hactA hactC

theorem approve_preserves_WF (st : DBState) (bid : Nat)
    (h1 : WFIds st) (h2 : NoOverlapRaw st.bookings) :
    WFIds (approveBooking st bid) ∧ NoOverlapRaw (approveBooking st bid).bookings := by
  unfold approveBooking
  cases hf : st.bookings.find? (fun x => x.id == bid) with
  | none => exact ⟨h1, h2⟩
  | some b =>
    have hbmem := List.mem_of_find?_eq_some hf
    have hbid : b.id = bid := by simpa using List.find?_some hf
    dsimp only []
    by_cases hc1 : (b.status == BookingStatus.approved
        || b.status == BookingStatus.completed) = true
    · rw [if_pos hc1]; exact ⟨h1, h2⟩
    · rw [if_neg hc1]
      by_cases hc2 : (b.status == BookingStatus.rejected
          || b.status == BookingStatus.cancelledByClient
          || b.status == BookingStatus.cancelledByAdmin) = true
      · rw [if_pos hc2]; exact ⟨h1, h2⟩
      · rw [if_neg hc2]
        have hpend : b.status = .pending := by
          cases hs : b.status
          case pending => rfl
          case approved => exact absurd (by rw [hs]; rfl) hc1
          case completed => exact absurd (by rw [hs]; rfl) hc1
          case rejected => exact absurd (by rw [hs]; rfl) hc2
          case cancelledByClient => exact absurd (by rw [hs]; rfl) hc2
          case cancelledByAdmin => exact absurd (by rw [hs]; rfl) hc2
        by_cases hc3 : ((st.bookings.filter (fun x => x.date == b.date && isActive x.status)).any
            (fun x => !(x.id == bid) && intervalsOverlap b.time
              (b.time + st.shop.occupy b.durationMinutes)
              x.time (x.time + approveOcc st.shop x))) = true
        · rw [if_pos hc3]
          exact ⟨updateBookingStatus_WFIds st bid .rejected h1,
            noOverlapRaw_update _ _ _ (fun x hx hxid habs => nomatch habs) h2⟩
        · rw [if_neg hc3]
          refine ⟨updateBookingStatus_WFIds st bid .approved h1,
            noOverlapRaw_update _ _ _ ?_ h2⟩
          intro x hx hxid _
          have hxb : x = b := List.inj_on_of_nodup_map h1.1 hx hbmem (by rw [hxid, hbid])
          rw [hxb, hpend]
          rfl

/-- The two mutating operations of the engine on the bookings table:
an atomic admission and an approval transition. -/
inductive EngineOp where
  | book (date time dur : Int) (status : BookingStatus) (occ : Option Int)
  | approve (bookingId : Nat)

/-- Apply one operation to the database state. -/
def applyOp (st : DBState) : EngineOp → DBState
  | .book d t dur status occ => (createBookingAtomic st d t dur status occ).1
  | .approve bid => approveBooking st bid

/-- Run a sequence of admissions and approvals. -/
def runOps (st : DBState) (ops : List EngineOp) : DBState :=
  ops.foldl applyOp st

theorem runOps_WF (ops : List EngineOp) : ∀ st : DBState,
    WFIds st → NoOverlapRaw st.bookings →
    WFIds (runOps st ops) ∧ NoOverlapRaw (runOps st ops).bookings := by
  induction ops with
  | nil => exact fun st h1 h2 => ⟨h1, h2⟩
  | cons op rest ih =>
    intro st h1 h2
    have hstep : WFIds (applyOp st op) ∧ NoOverlapRaw (applyOp st op).bookings := by
      cases op with
      | book d t dur status occ =>
        exact ⟨create_preserves_WFIds st d t dur status occ h1,
          create_preserves_NoOverlapRaw st d t dur status occ h2⟩
      | approve bid => exact approve_preserves_WF st bid h1 h2
    exact ih (applyOp st op) hstep.1 hstep.2

/-- C1, amended: starting from the empty table, after any sequence of
atomic admissions and approval transitions, every pair of distinct active
(pending or approved) bookings on the same date has non-overlapping
intervals `[start, start + occ)` where `occ` is the stored
`occupy_minutes` when present, else the raw `duration_minutes` — the
intervals the admission check itself uses.  (As originally stated, with
`occ` derived via the Occupancy Model for rows without a stored
`occupy_minutes`, the invariant is not preserved — see the
counterexample.) -/
theorem no_overlap_invariant (shop : ShopSettings) (ops : List EngineOp) :
    NoOverlapRaw (runOps (emptyDB shop) ops).bookings :=
  (runOps_WF ops (emptyDB shop) ⟨List.nodup_nil, fun _ hb => nomatch hb⟩
    List.Pairwise.nil).2
